import Mathlib

/-!
# RPGChess — verification of the multiplayer session server and battle model

Shallow embedding of the RPGChess repository's core:

* the piece model and battle resolution (`client/src/lib/chess/battleSystem.ts`
  with effective stats, i.e. the version importing `getEffectiveStats` from
  `pieceData.ts`),
* the stat tables, heal / XP formulas (`client/src/lib/chess/pieceData.ts`),
* the chess move generators (`client/src/lib/chess/chessLogic.ts`),
* the healer action (`performHeal` in `client/src/lib/stores/useChessGame.tsx`),
* the Socket.IO room handlers (`server/routes.ts`: `create_room`, `join_room`,
  `make_move`, `game_end`, `disconnect`) as pure functions over an explicit
  server state, and
* the persistence layer's `completeGame` (`server/stores/storage.ts`) over an
  explicit database state.

JavaScript `Math.random()` draws are modelled as explicit oracle inputs (the
die rolls of `resolveBattle`, the fractional base-36 digit expansion of the
draw inside `generateRoomId`).  Database calls made by handlers are external
effects; where a handler stores a database result (`gameId`) the result is an
oracle input.  `setTimeout` callbacks are modelled as explicit scheduled
tasks together with pure functions giving each task's effect when it fires.
-/

namespace RPGChess

/-! ## Piece model (`useChessGame.tsx` `ChessPiece`, `pieceData.ts`) -/

/-- The six piece ranks (`ChessPiece['type']`). -/
inductive PieceType where
  | pawn | rook | knight | bishop | queen | king
  deriving DecidableEq, Repr

/-- The two sides (`'white' | 'black'`). -/
inductive Color where
  | white | black
  deriving DecidableEq, Repr

/-- `playerColor === 'white' ? 'black' : 'white'`. -/
def flipColor : Color → Color
  | .white => .black
  | .black => .white

/-- Permanent stat modifiers carried by a piece (`ChessPiece.mods`). -/
structure Mods where
  attack : Int
  defense : Int
  maxHealth : Int
  deriving DecidableEq, Repr

/-- `ChessPiece` from `useChessGame.tsx`. -/
structure ChessPiece where
  id : String
  type : PieceType
  color : Color
  health : Int
  level : Int
  xp : Int
  unspentPoints : Int
  mods : Mods
  hasMoved : Bool
  deriving DecidableEq, Repr

/-- Base stat block (`PieceStats` in `pieceData.ts`). -/
structure PieceStats where
  maxHealth : Int
  attack : Int
  defense : Int
  deriving DecidableEq, Repr

/-- The base stat table of `getPieceStats` in `pieceData.ts`. -/
def getPieceStats : PieceType → PieceStats
  | .pawn   => { maxHealth := 25,  attack := 8,  defense := 5 }
  | .rook   => { maxHealth := 60,  attack := 15, defense := 12 }
  | .knight => { maxHealth := 45,  attack := 12, defense := 8 }
  | .bishop => { maxHealth := 40,  attack := 10, defense := 7 }
  | .queen  => { maxHealth := 80,  attack := 18, defense := 15 }
  | .king   => { maxHealth := 100, attack := 12, defense := 18 }

/-- `getEffectiveStats` in `pieceData.ts`: base stats plus permanent mods. -/
def getEffectiveStats (piece : ChessPiece) : PieceStats :=
  let baseStats := getPieceStats piece.type
  { maxHealth := baseStats.maxHealth + piece.mods.maxHealth
    attack := baseStats.attack + piece.mods.attack
    defense := baseStats.defense + piece.mods.defense }

/-- `getMaxHealth` in `pieceData.ts`: effective max health. -/
def getMaxHealth (piece : ChessPiece) : Int :=
  (getPieceStats piece.type).maxHealth + piece.mods.maxHealth

/-- `calculateHealAmount` in `pieceData.ts`.  The JavaScript computes
`Math.floor(targetMaxHealth * Math.min(0.25 + (bishopLevel - 1) * 0.05, 0.75))`;
the decimal literals are embedded as exact rationals. -/
def calculateHealAmount (bishopLevel : Int) (targetMaxHealth : Int) : Int :=
  let healPercentage : ℚ :=
    min ((25 : ℚ)/100 + ((bishopLevel : ℚ) - 1) * ((5 : ℚ)/100)) ((75 : ℚ)/100)
  Int.floor ((targetMaxHealth : ℚ) * healPercentage)

/-! ## Battle resolution (`battleSystem.ts`, the `getEffectiveStats` version)

The two die rolls are `Math.floor(Math.random() * 20) + 1` in the source; the
underlying random draws are modelled as the explicit oracle arguments
`attackerRoll` and `defenderRoll`.  Nothing else in the function's body reads
any other input — in particular no room code, move number or piece id. -/

/-- Outcome tag (`BattleResult['result']`). -/
inductive BattleOutcome where
  | attacker_wins | defender_wins | both_survive
  deriving DecidableEq, Repr

/-- `BattleResult` from `battleSystem.ts`. -/
structure BattleResult where
  attacker : ChessPiece
  defender : ChessPiece
  originalAttacker : ChessPiece
  originalDefender : ChessPiece
  attackerRoll : Int
  defenderRoll : Int
  damage : Int
  result : BattleOutcome
  deriving DecidableEq, Repr

/-- `resolveBattle` from `battleSystem.ts`, with the two `Math.random()` die
rolls passed in as oracle inputs. -/
def resolveBattle (attacker defender : ChessPiece)
    (attackerRoll defenderRoll : Int) : BattleResult :=
  let attackerStats := getEffectiveStats attacker
  let defenderStats := getEffectiveStats defender
  let effectiveAttack := attackerStats.attack + attackerRoll
  let effectiveDefense := defenderStats.defense + defenderRoll
  let damage := max 1 (effectiveAttack - effectiveDefense)
  let newDefenderHealth := max 0 (defender.health - damage)
  let statDifference := defenderStats.attack - attackerStats.defense
  let rollAdvantage := defenderRoll - attackerRoll
  let outcome : BattleOutcome × Int × Int :=
    if newDefenderHealth ≤ 0 then
      (.attacker_wins, attacker.health, 0)
    else
      if statDifference > 2 ∧ rollAdvantage > 10 then
        let counterDamage := max 1 (min 3 statDifference)
        if counterDamage ≥ attacker.health then
          (.defender_wins, 0, newDefenderHealth)
        else
          (.both_survive, max 1 (attacker.health - counterDamage),
            newDefenderHealth)
      else
        (.both_survive, attacker.health, newDefenderHealth)
  { attacker := { attacker with health := outcome.2.1 }
    defender := { defender with health := outcome.2.2 }
    originalAttacker := attacker
    originalDefender := defender
    attackerRoll := attackerRoll
    defenderRoll := defenderRoll
    damage := damage
    result := outcome.1 }

/-! ## Board and move generators (`chessLogic.ts`) -/

/-- A board coordinate (`Position` in `useChessGame.tsx`). -/
structure Position where
  row : Int
  col : Int
  deriving DecidableEq, Repr

/-- The 8×8 board of optional pieces (`(ChessPiece | null)[][]`), as a map
from coordinates to the occupant; coordinates outside the 8×8 range are
only ever read behind an `isValidPosition` guard, as in the source. -/
abbrev Board := Position → Option ChessPiece

/-- `isValidPosition` in `chessLogic.ts`. -/
def isValidPosition (row col : Int) : Prop :=
  0 ≤ row ∧ row < 8 ∧ 0 ≤ col ∧ col < 8

instance (row col : Int) : Decidable (isValidPosition row col) := by
  unfold isValidPosition; infer_instance

/-- One direction of the `for (let i = 1; i < 8; i++)` sliding loop shared by
`getRookMoves` and `getBishopMoves`: visit squares at offsets `i*d`, pushing
empty squares and stopping at the first occupied square (which is also pushed
when it holds an enemy piece).  `fuel` counts the remaining iterations. -/
def slideLoop (board : Board) (color : Color) (pos : Position)
    (dRow dCol : Int) : Nat → Int → List Position
  | 0, _ => []
  | fuel + 1, i =>
    let newRow := pos.row + i * dRow
    let newCol := pos.col + i * dCol
    if isValidPosition newRow newCol then
      match board ⟨newRow, newCol⟩ with
      | none => ⟨newRow, newCol⟩ :: slideLoop board color pos dRow dCol fuel (i + 1)
      | some targetPiece =>
        if targetPiece.color ≠ color then [⟨newRow, newCol⟩] else []
    else []

/-- The full sweep of one sliding direction (`i` runs from 1 to 7). -/
def slideDir (board : Board) (color : Color) (pos : Position)
    (d : Int × Int) : List Position :=
  slideLoop board color pos d.1 d.2 7 1

/-- `getRookMoves` in `chessLogic.ts`. -/
def getRookMoves (board : Board) (pos : Position) (color : Color) : List Position :=
  [((0 : Int), (1 : Int)), (0, -1), (1, 0), (-1, 0)].flatMap (slideDir board color pos)

/-- `getBishopMoves` in `chessLogic.ts`. -/
def getBishopMoves (board : Board) (pos : Position) (color : Color) : List Position :=
  [((-1 : Int), (-1 : Int)), (-1, 1), (1, -1), (1, 1)].flatMap (slideDir board color pos)

/-- `getQueenMoves` in `chessLogic.ts`:
`[...getRookMoves(...), ...getBishopMoves(...)]`. -/
def getQueenMoves (board : Board) (pos : Position) (color : Color) : List Position :=
  getRookMoves board pos color ++ getBishopMoves board pos color

/-- Shared shape of the fixed-offset generators (`getKnightMoves`,
`getKingMoves`): keep the in-bounds offsets landing on an empty or enemy
square. -/
def offsetMoves (board : Board) (pos : Position) (color : Color)
    (offsets : List (Int × Int)) : List Position :=
  offsets.filterMap fun d =>
    let newRow := pos.row + d.1
    let newCol := pos.col + d.2
    if isValidPosition newRow newCol then
      match board ⟨newRow, newCol⟩ with
      | none => some ⟨newRow, newCol⟩
      | some targetPiece =>
        if targetPiece.color ≠ color then some ⟨newRow, newCol⟩ else none
    else none

/-- `getKnightMoves` in `chessLogic.ts`. -/
def getKnightMoves (board : Board) (pos : Position) (color : Color) : List Position :=
  offsetMoves board pos color
    [(-2, -1), (-2, 1), (-1, -2), (-1, 2), (1, -2), (1, 2), (2, -1), (2, 1)]

/-- `getKingMoves` in `chessLogic.ts`. -/
def getKingMoves (board : Board) (pos : Position) (color : Color) : List Position :=
  offsetMoves board pos color
    [(-1, -1), (-1, 0), (-1, 1), (0, -1), (0, 1), (1, -1), (1, 0), (1, 1)]

/-- `getPawnMoves` in `chessLogic.ts`. -/
def getPawnMoves (board : Board) (pos : Position) (color : Color) : List Position :=
  let direction : Int := if color = .white then -1 else 1
  let startRow : Int := if color = .white then 6 else 1
  let forward : List Position :=
    if isValidPosition (pos.row + direction) pos.col ∧
        board ⟨pos.row + direction, pos.col⟩ = none then
      ⟨pos.row + direction, pos.col⟩ ::
        (if pos.row = startRow ∧ board ⟨pos.row + 2 * direction, pos.col⟩ = none then
          [⟨pos.row + 2 * direction, pos.col⟩]
        else [])
    else []
  let captures : List Position :=
    [⟨pos.row + direction, pos.col - 1⟩, ⟨pos.row + direction, pos.col + 1⟩].filter
      fun p =>
        decide (isValidPosition p.row p.col) &&
          match board p with
          | some targetPiece => targetPiece.color != color
          | none => false
  forward ++ captures

/-- `getValidMoves` in `chessLogic.ts`: dispatch on the occupant's type. -/
def getValidMoves (board : Board) (pos : Position) : List Position :=
  match board pos with
  | none => []
  | some piece =>
    match piece.type with
    | .pawn => getPawnMoves board pos piece.color
    | .rook => getRookMoves board pos piece.color
    | .knight => getKnightMoves board pos piece.color
    | .bishop => getBishopMoves board pos piece.color
    | .queen => getQueenMoves board pos piece.color
    | .king => getKingMoves board pos piece.color

/-! ## The healer action (`performHeal` in `useChessGame.tsx`)

`performHeal` reads the bishop and the target off the board, bails out when
either is missing, the healer is not a bishop, or the colors differ, and
otherwise replaces the target with a copy whose health is
`Math.min(targetMaxHealth, target.health + healAmount)`.  Only the board
update is modelled; the turn flip and UI-state resets it also performs do not
touch any piece. -/

/-- The board after `performHeal(bishopPosition, targetPosition)`. -/
def performHeal (board : Board) (bishopPosition targetPosition : Position) : Board :=
  match board bishopPosition, board targetPosition with
  | some bishop, some target =>
    if bishop.type = .bishop ∧ bishop.color = target.color then
      let targetMaxHealth := getMaxHealth target
      let healAmount := calculateHealAmount bishop.level targetMaxHealth
      let newHealth := min targetMaxHealth (target.health + healAmount)
      fun p =>
        if p = targetPosition then some { target with health := newHealth }
        else board p
    else board
  | _, _ => board

/-- `xpToNext` in `pieceData.ts`. -/
def xpToNext (level : Int) : Int := 50 + 50 * (level - 1)

/-- `XP_BASE_VALUES` in `pieceData.ts`. -/
def xpBaseValue : PieceType → Int
  | .pawn => 20 | .knight => 40 | .bishop => 40
  | .rook => 60 | .queen => 100 | .king => 150

/-! ## JavaScript `Map` as an association list

`gameRooms` and `playerSockets` in `routes.ts` are `Map`s; `Map.get`,
`Map.set` (which replaces an existing entry) and `Map.delete` are embedded
over association lists. -/

/-- `Map.get`. -/
def mapGet {κ α : Type} [DecidableEq κ] : List (κ × α) → κ → Option α
  | [], _ => none
  | (k', v) :: rest, k => if k' = k then some v else mapGet rest k

/-- `Map.set`: replaces the entry when the key is present, appends otherwise. -/
def mapSet {κ α : Type} [DecidableEq κ] : List (κ × α) → κ → α → List (κ × α)
  | [], k, v => [(k, v)]
  | (k', v') :: rest, k, v =>
    if k' = k then (k, v) :: rest else (k', v') :: mapSet rest k v

/-- `Map.delete`. -/
def mapDelete {κ α : Type} [DecidableEq κ] : List (κ × α) → κ → List (κ × α)
  | [], _ => []
  | (k', v') :: rest, k =>
    if k' = k then rest else (k', v') :: mapDelete rest k

/-! ## Room registry and session protocol (`server/routes.ts`, Socket.IO part)

The handlers are embedded as pure functions over an explicit `ServerState`.
Each handler returns the new state, the list of emitted events (tagged by
destination: the submitting socket, the other room members via
`socket.to(roomId)`, or the whole room via `io.to(roomId)`), and the list of
`setTimeout` callbacks it scheduled.  Database writes (`updateGameState`,
`addGameMove`, `updateGameStatus`, …) are fire-and-forget external effects
and are not part of the room state; where a handler stores the result of a
database call (`room.gameId = gameRecord.id` in `join_room`), the call's
result is an oracle input (`none` models the caught failure).  Payloads are
modelled after `zod` schema validation has succeeded; a parse failure takes
the `catch` path, which emits a single `error` event to the sender and
touches no state.  The type of the opaque client-supplied `gameState` JSON is
the parameter `γ`. -/

/-- One occupied player slot (`{ id, username, socketId }`). -/
structure PlayerSlot where
  id : Nat
  username : String
  socketId : String
  deriving DecidableEq, Repr

/-- Room lifecycle status (`'waiting' | 'playing' | 'finished'`). -/
inductive RoomStatus where
  | waiting | playing | finished
  deriving DecidableEq, Repr

/-- Position of a status in the forward lifecycle order. -/
def statusRank : RoomStatus → Nat
  | .waiting => 0 | .playing => 1 | .finished => 2

/-- `s` precedes or equals `t` in the `waiting → playing → finished` order. -/
def statusLe (s t : RoomStatus) : Prop := statusRank s ≤ statusRank t

instance (s t : RoomStatus) : Decidable (statusLe s t) := by
  unfold statusLe; infer_instance

/-- `GameRoom` from `routes.ts`; `gameState` starts out `null`, hence
`Option γ`. -/
structure GameRoom (γ : Type) where
  id : String
  gameId : Option Nat
  white : Option PlayerSlot
  black : Option PlayerSlot
  gameState : Option γ
  status : RoomStatus
  currentTurn : Color
  moveCount : Nat
  createdAt : Nat
  deriving DecidableEq, Repr

/-- An entry of `playerSockets`. -/
structure PlayerInfo where
  userId : Nat
  username : String
  roomId : Option String
  isGuest : Bool
  deriving DecidableEq, Repr

/-- The server's shared mutable state: the two registries. -/
structure ServerState (γ : Type) where
  gameRooms : List (String × GameRoom γ)
  playerSockets : List (String × PlayerInfo)
  deriving DecidableEq, Repr

/-- A `make_move` payload's `move` object after `makeMoveSchema` validation
(`from`/`to`/`piece` strings plus a positive integer `moveNumber`; the
positivity bound is subsumed by the handler's sequencing check). -/
structure MoveData where
  source : String
  dest : String
  piece : String
  moveNumber : Nat
  deriving DecidableEq, Repr

/-- `game_end` winner field (`'white' | 'black' | 'draw'`). -/
inductive GameWinner where
  | white | black | draw
  deriving DecidableEq, Repr

/-- Where an emission goes: `socket.emit` (the sender only),
`socket.to(roomId).emit` (other room members), `io.to(roomId).emit`
(everyone in the room). -/
inductive EmitTarget where
  | sender
  | roomOthers (roomId : String)
  | roomAll (roomId : String)
  deriving DecidableEq, Repr

/-- The server→client events the embedded handlers emit. -/
inductive SEvent (γ : Type) where
  | errorEv (message : String)
  | roomCreated (roomId : String) (role : Color)
  | gameStart (white black : Option PlayerSlot) (gameId : Option Nat)
  | opponentMove (move : MoveData) (gameState : γ) (player : Color) (moveNumber : Nat)
  | moveAccepted (move : MoveData) (gameState : γ) (player : Color) (moveNumber : Nat)
  | gameEnded (winner : GameWinner) (gameState : γ)
  | playerDisconnected (player : String) (playerId : Nat)
  deriving DecidableEq, Repr

/-- A `setTimeout` scheduled by a handler, with its delay in milliseconds. -/
inductive SchedTask where
  | gameEndCleanup (roomId : String) (delayMs : Nat)
  | abandonedCleanup (roomId : String) (delayMs : Nat)
  deriving DecidableEq, Repr

/-- What a handler invocation produces. -/
structure HandlerResult (γ : Type) where
  state : ServerState γ
  events : List (EmitTarget × SEvent γ)
  tasks : List SchedTask
  deriving DecidableEq, Repr

/-- Does this (optional) slot belong to the given socket
(`room.players.white?.socketId === socket.id`)? -/
def slotHasSocket : Option PlayerSlot → String → Bool
  | some slot, sid => slot.socketId == sid
  | none, _ => false

/-- The `create_room` handler.  `newRoomId` is the value `generateRoomId()`
returned (an oracle input: it depends on `Math.random()`); `now` is the
creation timestamp.  Note there is no collision check: the new room is
`Map.set` into the registry unconditionally. -/
def createRoom (st : ServerState γ) (sid : String) (newRoomId : String)
    (now : Nat) : HandlerResult γ :=
  match mapGet st.playerSockets sid with
  | none => ⟨st, [(.sender, .errorEv "Not authenticated")], []⟩
  | some player =>
    let room : GameRoom γ :=
      { id := newRoomId
        gameId := none
        white := some ⟨player.userId, player.username, sid⟩
        black := none
        gameState := none
        status := .waiting
        currentTurn := .white
        moveCount := 0
        createdAt := now }
    { state :=
        { gameRooms := mapSet st.gameRooms newRoomId room
          playerSockets :=
            mapSet st.playerSockets sid { player with roomId := some newRoomId } }
      events := [(.sender, .roomCreated newRoomId .white)]
      tasks := [] }

/-- The `join_room` handler.  `newGameId` is the database id returned by
`storage.createGame` (`none` models the caught failure, in which case
`room.gameId` keeps its previous value). -/
def joinRoom (st : ServerState γ) (sid : String) (rid : String)
    (newGameId : Option Nat) : HandlerResult γ :=
  match mapGet st.playerSockets sid with
  | none => ⟨st, [(.sender, .errorEv "Not authenticated")], []⟩
  | some player =>
    match mapGet st.gameRooms rid with
    | none => ⟨st, [(.sender, .errorEv "Room not found")], []⟩
    | some room =>
      if room.status ≠ .waiting then
        ⟨st, [(.sender, .errorEv "Room is not available")], []⟩
      else if room.black.isSome then
        ⟨st, [(.sender, .errorEv "Room is full")], []⟩
      else
        let room' : GameRoom γ :=
          { room with
              black := some ⟨player.userId, player.username, sid⟩
              status := .playing
              gameId := match newGameId with
                | some g => some g
                | none => room.gameId }
        { state :=
            { gameRooms := mapSet st.gameRooms rid room'
              playerSockets :=
                mapSet st.playerSockets sid { player with roomId := some rid } }
          events := [(.roomAll rid, .gameStart room'.white room'.black room'.gameId)]
          tasks := [] }

/-- The `make_move` handler with its validation gates, in source order:
authentication, room existence, `playing` status, membership, turn,
`moveNumber === room.moveCount + 1` sequencing; on acceptance the room's
`gameState`/`currentTurn`/`moveCount` are updated and `opponent_move` /
`move_accepted` are emitted. -/
def makeMove (st : ServerState γ) (sid : String) (rid : String)
    (mv : MoveData) (gs : γ) : HandlerResult γ :=
  match mapGet st.playerSockets sid with
  | none => ⟨st, [(.sender, .errorEv "Not authenticated")], []⟩
  | some _player =>
    match mapGet st.gameRooms rid with
    | none => ⟨st, [(.sender, .errorEv "Room not found")], []⟩
    | some room =>
      if room.status ≠ .playing then
        ⟨st, [(.sender, .errorEv "Game is not active")], []⟩
      else
        let isWhite := slotHasSocket room.white sid
        let isBlack := slotHasSocket room.black sid
        if ¬isWhite ∧ ¬isBlack then
          ⟨st, [(.sender, .errorEv "Not a player in this room")], []⟩
        else
          let playerColor : Color := if isWhite then .white else .black
          if room.currentTurn ≠ playerColor then
            ⟨st, [(.sender, .errorEv "Not your turn")], []⟩
          else if mv.moveNumber ≠ room.moveCount + 1 then
            ⟨st, [(.sender, .errorEv "Invalid move sequence")], []⟩
          else
            let room' : GameRoom γ :=
              { room with
                  gameState := some gs
                  currentTurn := flipColor playerColor
                  moveCount := mv.moveNumber }
            { state := { st with gameRooms := mapSet st.gameRooms rid room' }
              events :=
                [(.roomOthers rid, .opponentMove mv gs playerColor mv.moveNumber),
                 (.sender, .moveAccepted mv gs playerColor mv.moveNumber)]
              tasks := [] }

/-- The `game_end` handler: membership-checked, then the room is marked
`finished`, `game_ended` is broadcast, and a 60 s room-deletion cleanup is
scheduled. -/
def gameEnd (st : ServerState γ) (sid : String) (rid : String)
    (winner : GameWinner) (gs : γ) : HandlerResult γ :=
  match mapGet st.playerSockets sid with
  | none => ⟨st, [(.sender, .errorEv "Not authenticated")], []⟩
  | some _player =>
    match mapGet st.gameRooms rid with
    | none => ⟨st, [(.sender, .errorEv "Room not found")], []⟩
    | some room =>
      let isWhite := slotHasSocket room.white sid
      let isBlack := slotHasSocket room.black sid
      if ¬isWhite ∧ ¬isBlack then
        ⟨st, [(.sender, .errorEv "Not a player in this room")], []⟩
      else
        let room' : GameRoom γ := { room with status := .finished, gameState := some gs }
        { state := { st with gameRooms := mapSet st.gameRooms rid room' }
          events := [(.roomAll rid, .gameEnded winner gs)]
          tasks := [.gameEndCleanup rid 60000] }

/-- The `disconnect` handler: when the socket was bound to an existing room,
the other members are notified; a still-`waiting` room is deleted
immediately, a `playing` room is left in place with a 5-minute abandoned-room
cleanup scheduled.  The socket's `playerSockets` entry is always removed. -/
def disconnect (st : ServerState γ) (sid : String) : HandlerResult γ :=
  let base := fun (rooms : List (String × GameRoom γ)) events tasks =>
    ({ state := { gameRooms := rooms, playerSockets := mapDelete st.playerSockets sid }
       events := events
       tasks := tasks } : HandlerResult γ)
  match mapGet st.playerSockets sid with
  | none => base st.gameRooms [] []
  | some player =>
    match player.roomId with
    | none => base st.gameRooms [] []
    | some rid =>
      match mapGet st.gameRooms rid with
      | none => base st.gameRooms [] []
      | some room =>
        let notify : List (EmitTarget × SEvent γ) :=
          [(.roomOthers rid, .playerDisconnected player.username player.userId)]
        match room.status with
        | .waiting => base (mapDelete st.gameRooms rid) notify []
        | .playing => base st.gameRooms notify [.abandonedCleanup rid 300000]
        | .finished => base st.gameRooms notify []

/-- The body of the `setTimeout` scheduled by `game_end`: unconditionally
delete the room. -/
def runGameEndCleanup (st : ServerState γ) (rid : String) : ServerState γ :=
  { st with gameRooms := mapDelete st.gameRooms rid }

/-- The body of the 5-minute `setTimeout` scheduled on disconnect from a
`playing` room: delete the room if it still exists and is still `playing`
(the database `abandoned` status write is an external effect). -/
def runAbandonedCleanup (st : ServerState γ) (rid : String) : ServerState γ :=
  match mapGet st.gameRooms rid with
  | some room =>
    if room.status = .playing then
      { st with gameRooms := mapDelete st.gameRooms rid }
    else st
  | none => st

/-! ## Room-code generation (`generateRoomId` in `routes.ts`)

`Math.random().toString(36).substring(2, 8).toUpperCase()`.  The decimal
string of a draw `r ∈ [0,1)` in base 36 is `"0." ++ digits` with trailing
zeros stripped (just `"0"` for `r = 0`), so `substring(2, 8)` is the first
six fractional base-36 digits of `r` — possibly fewer when the expansion is
shorter.  The digit list (trailing zeros already stripped) is the oracle
input. -/

/-- The lowercase base-36 digit characters produced by `Number.toString(36)`. -/
def base36Char (d : Fin 36) : Char :=
  if d.val < 10 then Char.ofNat (48 + d.val) else Char.ofNat (97 + (d.val - 10))

/-- `generateRoomId`, as a function of the draw's fractional base-36 digits. -/
def generateRoomId (digits : List (Fin 36)) : String :=
  String.mk (((digits.take 6).map base36Char).map Char.toUpper)

/-! ## Persistence layer: `completeGame` (`server/storage.ts`)

`PostgresStorage.completeGame` runs one transaction: re-read the game row,
return it unchanged when its status is already `'completed'`, and otherwise
mark it completed and fold the outcome into both players' `user_stats` rows
(creating a default row first when a player has none).  The database is
embedded as explicit `games` / `user_stats` tables keyed by id; `new Date()`
is the `now` argument; a thrown error is `Except.error`. -/

/-- A row of the `games` table, with the columns `completeGame` touches. -/
structure GameRec where
  id : Nat
  player1Id : Option Nat
  player2Id : Option Nat
  status : String
  winner : Option GameWinner
  winnerUserId : Option Nat
  whitePoints : Int
  blackPoints : Int
  completedAt : Option Nat
  updatedAt : Nat
  deriving DecidableEq, Repr

/-- A row of the `user_stats` table. -/
structure UserStatsRec where
  userId : Nat
  gamesPlayed : Int
  gamesWon : Int
  gamesLost : Int
  rating : Int
  totalPoints : Int
  level : Int
  updatedAt : Nat
  deriving DecidableEq, Repr

/-- The two tables `completeGame` reads and writes. -/
structure DBState where
  games : List (Nat × GameRec)
  stats : List (Nat × UserStatsRec)
  deriving DecidableEq, Repr

/-- `computeLevel` in `storage.ts`:
`1 + Math.floor((totalPoints + gamesWon * 10) / 50)`. -/
def computeLevel (totalPoints gamesWon : Int) : Int :=
  1 + (totalPoints + gamesWon * 10).fdiv 50

/-- The default row inserted when a player has no `user_stats` yet. -/
def defaultStats (uid : Nat) (now : Nat) : UserStatsRec :=
  { userId := uid, gamesPlayed := 0, gamesWon := 0, gamesLost := 0
    rating := 1200, totalPoints := 0, level := 1, updatedAt := now }

/-- The per-player stats fold inside `completeGame` (get-or-create the row,
then add the game to the counters, points, and recomputed level). -/
def updatePlayerStats (stats : List (Nat × UserStatsRec)) (pid : Nat)
    (actualWinnerUserId : Option Nat) (winnerColor : GameWinner)
    (winnerPoints : Int) (now : Nat) : List (Nat × UserStatsRec) :=
  let s := (mapGet stats pid).getD (defaultStats pid now)
  let isWinner := actualWinnerUserId = some pid
  let isLoser := winnerColor ≠ .draw ∧ ¬isWinner
  mapSet stats pid
    { s with
        gamesPlayed := s.gamesPlayed + 1
        gamesWon := s.gamesWon + (if isWinner then 1 else 0)
        gamesLost := s.gamesLost + (if isLoser then 1 else 0)
        totalPoints := s.totalPoints + (if isWinner then winnerPoints else 0)
        level := computeLevel
          (s.totalPoints + (if isWinner then winnerPoints else 0))
          (s.gamesWon + (if isWinner then 1 else 0))
        updatedAt := now }

/-- JavaScript truthiness of an optional numeric id (`null` and `0` are
falsy), used by the `if (winnerUserId)` / `if (player1Id)` guards. -/
def jsTruthy : Option Nat → Bool
  | some n => n != 0
  | none => false

/-- `PostgresStorage.completeGame`.  Returns the resulting game row and the
database state after the transaction. -/
def completeGame (db : DBState) (id : Nat) (winnerColor : GameWinner)
    (winnerUserId : Option Nat) (now : Nat) : Except String (GameRec × DBState) :=
  match mapGet db.games id with
  | none => .error "Game not found"
  | some gameData =>
    if gameData.status = "completed" then
      .ok (gameData, db)
    else
      let winnerPoints : Int :=
        match winnerColor with
        | .white => gameData.whitePoints
        | .black => gameData.blackPoints
        | .draw => 0
      let updatedGame : GameRec :=
        { gameData with
            status := "completed"
            winner := some winnerColor
            winnerUserId := if jsTruthy winnerUserId then winnerUserId else none
            completedAt := some now
            updatedAt := now }
      let actualWinnerUserId : Option Nat :=
        if jsTruthy winnerUserId then winnerUserId
        else match winnerColor with
          | .white => gameData.player1Id
          | .black => gameData.player2Id
          | .draw => none
      let statsAfter1 :=
        match gameData.player1Id with
        | some p1 =>
          if jsTruthy (some p1) then
            updatePlayerStats db.stats p1 actualWinnerUserId winnerColor winnerPoints now
          else db.stats
        | none => db.stats
      let statsAfter2 :=
        match gameData.player2Id with
        | some p2 =>
          if jsTruthy (some p2) then
            updatePlayerStats statsAfter1 p2 actualWinnerUserId winnerColor winnerPoints now
          else statsAfter1
        | none => statsAfter1
      .ok (updatedGame, { games := mapSet db.games id updatedGame, stats := statsAfter2 })

/-! ## Concrete sample data used by witnesses -/

/-- A fresh white pawn at its base stats. -/
def samplePawnW : ChessPiece :=
  { id := "wp1", type := .pawn, color := .white, health := 25, level := 1
    xp := 0, unspentPoints := 0, mods := ⟨0, 0, 0⟩, hasMoved := false }

/-- A fresh black pawn at its base stats. -/
def samplePawnB : ChessPiece :=
  { id := "bp1", type := .pawn, color := .black, health := 25, level := 1
    xp := 0, unspentPoints := 0, mods := ⟨0, 0, 0⟩, hasMoved := false }

/-- A fresh black queen at its base stats. -/
def sampleQueenB : ChessPiece :=
  { id := "bq", type := .queen, color := .black, health := 80, level := 1
    xp := 0, unspentPoints := 0, mods := ⟨0, 0, 0⟩, hasMoved := false }

/-! ## Association-list lemmas for the JavaScript `Map` embedding -/

theorem mapGet_mapSet {κ α : Type} [DecidableEq κ]
    (m : List (κ × α)) (k k' : κ) (v : α) :
    mapGet (mapSet m k v) k' = if k = k' then some v else mapGet m k' := by
  induction m with
  | nil => simp [mapGet, mapSet]
  | cons hd tl ih =>
    obtain ⟨k₀, v₀⟩ := hd
    by_cases h0 : k₀ = k
    · subst h0
      simp only [mapSet, if_pos rfl, mapGet]
      by_cases h1 : k₀ = k'
      · subst h1; simp [mapGet]
      · simp [mapGet, h1]
    · simp only [mapSet, if_neg h0, mapGet]
      by_cases h1 : k₀ = k'
      · subst h1
        have : ¬k = k₀ := fun h => h0 h.symm
        simp [this]
      · simp [h1, ih]

theorem mapGet_eq_none_of_not_mem {κ α : Type} [DecidableEq κ]
    (m : List (κ × α)) (k : κ) (h : k ∉ m.map Prod.fst) : mapGet m k = none := by
  induction m with
  | nil => rfl
  | cons hd tl ih =>
    obtain ⟨k₀, v₀⟩ := hd
    simp only [List.map_cons, List.mem_cons, not_or] at h
    simp only [mapGet]
    rw [if_neg (fun he => h.1 he.symm)]
    exact ih h.2

theorem mapGet_mapDelete {κ α : Type} [DecidableEq κ]
    (m : List (κ × α)) (k k' : κ) (hnd : (m.map Prod.fst).Nodup) :
    mapGet (mapDelete m k) k' = if k = k' then none else mapGet m k' := by
  induction m with
  | nil => simp [mapGet, mapDelete]
  | cons hd tl ih =>
    obtain ⟨k₀, v₀⟩ := hd
    simp only [List.map_cons, List.nodup_cons] at hnd
    obtain ⟨hnotin, hnd'⟩ := hnd
    by_cases h0 : k₀ = k
    · subst h0
      have hdel : mapDelete ((k₀, v₀) :: tl) k₀ = tl := by simp [mapDelete]
      rw [hdel]
      by_cases h1 : k₀ = k'
      · subst h1
        rw [if_pos rfl]
        exact mapGet_eq_none_of_not_mem tl k₀ hnotin
      · rw [if_neg h1]
        simp only [mapGet]
        rw [if_neg h1]
    · simp only [mapDelete, if_neg h0, mapGet]
      by_cases h1 : k₀ = k'
      · subst h1
        rw [if_pos rfl, if_neg (fun h => h0 h.symm), if_pos rfl]
      · simp only [if_neg h1]
        exact ih hnd'

/-! ## Claims about battle resolution -/

/-- The counter-damage clause of the specified battle algorithm, written from
the spec's wording (§4.2): when the defender survives, counter-damage of
`min(3, defender.attack − attacker.defense)` applies exactly when the stat
difference exceeds 2 and the defender out-rolls the attacker by more than 10;
if it would drop the attacker to ≤ 0 the defender wins with the attacker's
health set to 0, otherwise both survive with the attacker's health reduced
but floored at 1. -/
def specCounterRule (attacker defender : ChessPiece) (r1 r2 : Int)
    (R : BattleResult) : Prop :=
  let statDiff := (getEffectiveStats defender).attack - (getEffectiveStats attacker).defense
  if statDiff > 2 ∧ r2 - r1 > 10 then
    if attacker.health - min 3 statDiff ≤ 0 then
      R.result = .defender_wins ∧ R.attacker.health = 0
    else
      R.result = .both_survive ∧
        R.attacker.health = max 1 (attacker.health - min 3 statDiff)
  else
    R.result = .both_survive ∧ R.attacker.health = attacker.health

/-- C4.  For every battle resolved by `resolveBattle` with attacker roll `r1`
and defender roll `r2`: the damage is
`max(1, (effective attack + r1) − (effective defense + r2))`, the defender's
new health is `max(0, health − damage)`, and when the defender's new health
is positive the spec's counter-damage rule (`specCounterRule`) describes the
outcome tag and the attacker's final health exactly. -/
theorem resolveBattle_damage_and_counter_spec
    (attacker defender : ChessPiece) (r1 r2 : Int) :
    (resolveBattle attacker defender r1 r2).damage
      = max 1 (((getEffectiveStats attacker).attack + r1)
          - ((getEffectiveStats defender).defense + r2)) ∧
    (resolveBattle attacker defender r1 r2).defender.health
      = max 0 (defender.health - (resolveBattle attacker defender r1 r2).damage) ∧
    (0 < max 0 (defender.health - (resolveBattle attacker defender r1 r2).damage) →
      specCounterRule attacker defender r1 r2 (resolveBattle attacker defender r1 r2)) := by
  unfold resolveBattle specCounterRule
  dsimp only
  refine ⟨rfl, ?_, ?_⟩
  · split_ifs <;> (dsimp only; try omega)
  · intro hpos
    split_ifs with h1 h2 h3 <;>
      (dsimp only
       first
         | exact ⟨rfl, by omega⟩
         | (exfalso; omega))

/-- C4 witness: a concrete battle (white pawn attacks black queen with rolls
1 and 15) in which the defender survives and the counter-damage rule fires. -/
theorem resolveBattle_damage_and_counter_spec_witness :
    0 < max 0 (sampleQueenB.health
      - (resolveBattle samplePawnW sampleQueenB 1 15).damage) ∧
    specCounterRule samplePawnW sampleQueenB 1 15
      (resolveBattle samplePawnW sampleQueenB 1 15) :=
  ⟨by decide,
    (resolveBattle_damage_and_counter_spec samplePawnW sampleQueenB 1 15).2.2
      (by decide)⟩

/-- C5.  When both combatants enter a battle with health inside
`[0, effective max health]`, the snapshots `resolveBattle` returns keep both
healths inside `[0, effective max health]`: no negative health, and never
above the piece's base-by-type maximum plus its modifiers. -/
theorem resolveBattle_health_bounds (attacker defender : ChessPiece) (r1 r2 : Int)
    (ha0 : 0 ≤ attacker.health) (ha1 : attacker.health ≤ getMaxHealth attacker)
    (hd0 : 0 ≤ defender.health) (hd1 : defender.health ≤ getMaxHealth defender) :
    0 ≤ (resolveBattle attacker defender r1 r2).attacker.health ∧
    (resolveBattle attacker defender r1 r2).attacker.health
      ≤ getMaxHealth (resolveBattle attacker defender r1 r2).attacker ∧
    0 ≤ (resolveBattle attacker defender r1 r2).defender.health ∧
    (resolveBattle attacker defender r1 r2).defender.health
      ≤ getMaxHealth (resolveBattle attacker defender r1 r2).defender := by
  unfold resolveBattle getMaxHealth at *
  dsimp only
  split_ifs <;> (dsimp only; refine ⟨by omega, by omega, by omega, by omega⟩)

/-- C5 witness: concrete pawn-versus-pawn battle starting from full health. -/
theorem resolveBattle_health_bounds_witness :
    (0 ≤ samplePawnW.health ∧ samplePawnW.health ≤ getMaxHealth samplePawnW ∧
      0 ≤ samplePawnB.health ∧ samplePawnB.health ≤ getMaxHealth samplePawnB) ∧
    (0 ≤ (resolveBattle samplePawnW samplePawnB 5 4).attacker.health ∧
      (resolveBattle samplePawnW samplePawnB 5 4).attacker.health
        ≤ getMaxHealth (resolveBattle samplePawnW samplePawnB 5 4).attacker ∧
      0 ≤ (resolveBattle samplePawnW samplePawnB 5 4).defender.health ∧
      (resolveBattle samplePawnW samplePawnB 5 4).defender.health
        ≤ getMaxHealth (resolveBattle samplePawnW samplePawnB 5 4).defender) :=
  ⟨⟨by decide, by decide, by decide, by decide⟩,
    resolveBattle_health_bounds samplePawnW samplePawnB 5 4
      (by decide) (by decide) (by decide) (by decide)⟩

/-- C3.  `resolveBattle` in the source takes only the two piece snapshots;
its die rolls come from fresh `Math.random()` draws (the oracle arguments
here), not from any `(roomCode, moveNumber, attackerId, defenderId)` seed —
no such seed exists anywhere in its signature or body.  Consequently two
invocations with identical snapshots (and hence identical values of every
claimed seed input) can disagree in rolls, damage and outcome: this theorem
evaluates the function at one such pair of random draws. -/
theorem resolveBattle_depends_on_random_draws :
    (resolveBattle samplePawnW sampleQueenB 20 4).attackerRoll = 20 ∧
    (resolveBattle samplePawnW sampleQueenB 5 4).attackerRoll = 5 ∧
    (resolveBattle samplePawnW sampleQueenB 20 4).damage
      ≠ (resolveBattle samplePawnW sampleQueenB 5 4).damage ∧
    resolveBattle samplePawnW sampleQueenB 20 4
      ≠ resolveBattle samplePawnW sampleQueenB 5 4 := by
  refine ⟨rfl, rfl, by decide, by decide⟩

/-! ## Claim about the queen's move generator -/

/-- C9.  On any board, the move list the dispatcher produces for a square
occupied by a queen has exactly the moves of the rook generator together
with those of the bishop generator for the same color on that square. -/
theorem queen_moves_eq_rook_union_bishop (board : Board) (pos : Position)
    (piece : ChessPiece) (hocc : board pos = some piece)
    (hq : piece.type = .queen) (p : Position) :
    p ∈ getValidMoves board pos ↔
      p ∈ getRookMoves board pos piece.color ∨
        p ∈ getBishopMoves board pos piece.color := by
  unfold getValidMoves
  rw [hocc]
  dsimp only
  rw [hq]
  simp [getQueenMoves]

/-- A board holding a single white queen on square (0,0). -/
def queenOnlyBoard : Board := fun p =>
  if p = ⟨0, 0⟩ then
    some { id := "wq", type := .queen, color := .white, health := 80, level := 1
           xp := 0, unspentPoints := 0, mods := ⟨0, 0, 0⟩, hasMoved := false }
  else none

/-- C9 witness: the equivalence evaluated for the lone white queen's board at
the target square (0,5). -/
theorem queen_moves_eq_rook_union_bishop_witness :
    (⟨0, 5⟩ : Position) ∈ getValidMoves queenOnlyBoard ⟨0, 0⟩ ↔
      (⟨0, 5⟩ : Position) ∈ getRookMoves queenOnlyBoard ⟨0, 0⟩ .white ∨
        (⟨0, 5⟩ : Position) ∈ getBishopMoves queenOnlyBoard ⟨0, 0⟩ .white :=
  queen_moves_eq_rook_union_bishop queenOnlyBoard ⟨0, 0⟩ _ rfl rfl ⟨0, 5⟩

/-! ## Claim about healing -/

/-- The health of the occupant of a square, when occupied. -/
def healthAt (board : Board) (p : Position) : Option Int :=
  (board p).map fun piece => piece.health

/-- C8.  `calculateHealAmount(L, M)` equals
`floor(M * min(0.75, 0.25 + 0.05*(L−1)))`; in particular a level-2 healer on
a 45-max-health target restores 13 HP; and `performHeal` never raises the
target square's health above `max` of its previous health and its effective
max health (when the heal applies, the new health is capped at the effective
max; when the guard rejects it, the health is unchanged). -/
theorem calculateHealAmount_formula_and_cap :
    (∀ L M : Int, calculateHealAmount L M
        = ⌊(M : ℚ) * min ((75 : ℚ)/100) ((25 : ℚ)/100 + ((5 : ℚ)/100) * ((L : ℚ) - 1))⌋) ∧
    calculateHealAmount 2 45 = 13 ∧
    (∀ (board : Board) (bp tp : Position) (target : ChessPiece),
      board tp = some target →
      (healthAt (performHeal board bp tp) tp).getD 0
        ≤ max target.health (getMaxHealth target)) := by
  refine ⟨?_, ?_, ?_⟩
  · intro L M
    unfold calculateHealAmount
    rw [min_comm]
    ring_nf
  · unfold calculateHealAmount
    norm_num [min_def]
  · intro board bp tp target htp
    unfold performHeal healthAt
    rcases hbp : board bp with _ | bishop
    · rw [htp]
      dsimp only
      rw [htp]
      simp
    · rw [htp]
      dsimp only
      split_ifs with hguard
      · simp
      · rw [htp]
        simp

/-- A white bishop of level 2 ready to heal. -/
def sampleBishop2W : ChessPiece :=
  { id := "wb", type := .bishop, color := .white, health := 40, level := 2
    xp := 60, unspentPoints := 0, mods := ⟨0, 0, 0⟩, hasMoved := true }

/-- A wounded white knight (40 of 45 health). -/
def woundedKnightW : ChessPiece :=
  { id := "wn", type := .knight, color := .white, health := 40, level := 1
    xp := 0, unspentPoints := 0, mods := ⟨0, 0, 0⟩, hasMoved := true }

/-- A board with the level-2 bishop on (0,0) and the wounded knight on (1,1). -/
def healBoard : Board := fun p =>
  if p = ⟨0, 0⟩ then some sampleBishop2W
  else if p = ⟨1, 1⟩ then some woundedKnightW
  else none

/-- C8 witness: the cap statement evaluated for the level-2 bishop healing
the wounded knight. -/
theorem calculateHealAmount_formula_and_cap_witness :
    healBoard ⟨1, 1⟩ = some woundedKnightW ∧
    (healthAt (performHeal healBoard ⟨0, 0⟩ ⟨1, 1⟩) ⟨1, 1⟩).getD 0
      ≤ max woundedKnightW.health (getMaxHealth woundedKnightW) :=
  ⟨by decide,
    calculateHealAmount_formula_and_cap.2.2 healBoard ⟨0, 0⟩ ⟨1, 1⟩ woundedKnightW
      (by decide)⟩

/-! ## Shape lemmas for the room handlers -/

theorem statusLe_refl (s : RoomStatus) : statusLe s s := Nat.le_refl _

theorem statusLe_finished (s : RoomStatus) : statusLe s .finished := by
  cases s <;> decide

theorem waiting_statusLe (s : RoomStatus) : statusLe .waiting s := by
  cases s <;> decide

/-- Every way `join_room` can change the room registry: either it leaves it
alone, or it replaces a `waiting` room by its `playing` successor. -/
theorem joinRoom_rooms_spec {γ : Type} (st : ServerState γ) (sid rid : String)
    (gid : Option Nat) :
    (joinRoom st sid rid gid).state.gameRooms = st.gameRooms ∨
    ∃ room room' : GameRoom γ,
      mapGet st.gameRooms rid = some room ∧ room.status = .waiting ∧
      room'.status = .playing ∧
      (joinRoom st sid rid gid).state.gameRooms = mapSet st.gameRooms rid room' := by
  unfold joinRoom
  rcases mapGet st.playerSockets sid with _ | player
  · exact Or.inl rfl
  · rcases hroom : mapGet st.gameRooms rid with _ | room
    · exact Or.inl rfl
    · dsimp only
      split_ifs with h1 h2
      · exact Or.inl rfl
      · exact Or.inl rfl
      · refine Or.inr ⟨room, _, rfl, ?_, rfl, rfl⟩
        rcases hs : room.status
        · rfl
        · exact absurd (by rw [hs]; decide) h1
        · exact absurd (by rw [hs]; decide) h1

/-- Every way `make_move` can change the room registry: either nothing, or a
status-preserving update of the addressed room. -/
theorem makeMove_rooms_spec {γ : Type} (st : ServerState γ) (sid rid : String)
    (mv : MoveData) (gs : γ) :
    (makeMove st sid rid mv gs).state.gameRooms = st.gameRooms ∨
    ∃ room room' : GameRoom γ,
      mapGet st.gameRooms rid = some room ∧ room'.status = room.status ∧
      (makeMove st sid rid mv gs).state.gameRooms = mapSet st.gameRooms rid room' := by
  unfold makeMove
  rcases mapGet st.playerSockets sid with _ | player
  · exact Or.inl rfl
  · rcases hroom : mapGet st.gameRooms rid with _ | room
    · exact Or.inl rfl
    · dsimp only
      split_ifs <;>
        first
          | exact Or.inl rfl
          | (refine Or.inr ⟨room, _, rfl, ?_, rfl⟩; rfl)

/-- Every way `game_end` can change the room registry: either nothing, or it
replaces the addressed room by its `finished` successor. -/
theorem gameEnd_rooms_spec {γ : Type} (st : ServerState γ) (sid rid : String)
    (w : GameWinner) (gs : γ) :
    (gameEnd st sid rid w gs).state.gameRooms = st.gameRooms ∨
    ∃ room room' : GameRoom γ,
      mapGet st.gameRooms rid = some room ∧ room'.status = .finished ∧
      (gameEnd st sid rid w gs).state.gameRooms = mapSet st.gameRooms rid room' := by
  unfold gameEnd
  rcases mapGet st.playerSockets sid with _ | player
  · exact Or.inl rfl
  · rcases hroom : mapGet st.gameRooms rid with _ | room
    · exact Or.inl rfl
    · dsimp only
      split_ifs with h1
      · exact Or.inl rfl
      · exact Or.inr ⟨room, _, rfl, rfl, rfl⟩

/-- Every way `disconnect` can change the room registry: either nothing, or
it deletes one room. -/
theorem disconnect_rooms_spec {γ : Type} (st : ServerState γ) (sid : String) :
    (disconnect st sid).state.gameRooms = st.gameRooms ∨
    ∃ rid, (disconnect st sid).state.gameRooms = mapDelete st.gameRooms rid := by
  unfold disconnect
  rcases mapGet st.playerSockets sid with _ | player
  · exact Or.inl rfl
  · dsimp only
    rcases player.roomId with _ | rid
    · exact Or.inl rfl
    · dsimp only
      rcases mapGet st.gameRooms rid with _ | room
      · exact Or.inl rfl
      · dsimp only
        rcases room.status
        · exact Or.inr ⟨rid, rfl⟩
        · exact Or.inl rfl
        · exact Or.inl rfl


/-- `create_room` always `Map.set`s the generated id to the fresh `waiting`
room and touches nothing else in the registry (when the requester is
unauthenticated it changes nothing). -/
theorem createRoom_rooms_spec {γ : Type} (st : ServerState γ) (sid nid : String)
    (now : Nat) :
    (createRoom st sid nid now).state.gameRooms = st.gameRooms ∨
    ∃ room' : GameRoom γ, room'.status = .waiting ∧
      (createRoom st sid nid now).state.gameRooms = mapSet st.gameRooms nid room' := by
  unfold createRoom
  rcases mapGet st.playerSockets sid with _ | player
  · exact Or.inl rfl
  · exact Or.inr ⟨_, rfl, rfl⟩

/-- Status monotonicity transfer along a `mapSet` whose new value does not
regress the replaced room's status. -/
theorem statusLe_of_mapSet {γ : Type} (m : List (String × GameRoom γ))
    (rid k : String) (room room' r r' : GameRoom γ)
    (hm : mapGet m rid = some room) (hst : statusLe room.status room'.status)
    (hr : mapGet m k = some r) (hr' : mapGet (mapSet m rid room') k = some r') :
    statusLe r.status r'.status := by
  rw [mapGet_mapSet] at hr'
  by_cases hk : rid = k
  · subst hk
    rw [if_pos rfl] at hr'
    rw [hm] at hr
    cases hr
    cases hr'
    exact hst
  · rw [if_neg hk, hr] at hr'
    cases hr'
    exact statusLe_refl _

/-- Status monotonicity transfer along a `mapDelete` (the surviving rooms are
untouched; needs the JavaScript `Map` key-uniqueness of the registry). -/
theorem statusLe_of_mapDelete {γ : Type} (m : List (String × GameRoom γ))
    (rid k : String) (r r' : GameRoom γ) (hnd : (m.map Prod.fst).Nodup)
    (hr : mapGet m k = some r) (hr' : mapGet (mapDelete m rid) k = some r') :
    statusLe r.status r'.status := by
  rw [mapGet_mapDelete _ _ _ hnd] at hr'
  by_cases hk : rid = k
  · rw [if_pos hk] at hr'
    cases hr'
  · rw [if_neg hk, hr] at hr'
    cases hr'
    exact statusLe_refl _

/-! ## Claim: strict move sequencing rejects without mutation -/

/-- C1.  Whenever the addressed room exists and the submitted move's
`moveNumber` differs from `room.moveCount + 1`, the `make_move` handler
leaves the entire server state (hence the room's `gameState`, `currentTurn`,
`moveCount` and `status`) untouched, emits exactly one `error` event, to the
submitting socket only, and schedules nothing. -/
theorem makeMove_bad_sequence_rejected {γ : Type} (st : ServerState γ)
    (sid rid : String) (mv : MoveData) (gs : γ) (room : GameRoom γ)
    (hroom : mapGet st.gameRooms rid = some room)
    (hseq : mv.moveNumber ≠ room.moveCount + 1) :
    (makeMove st sid rid mv gs).state = st ∧
    (∃ msg, (makeMove st sid rid mv gs).events = [(.sender, .errorEv msg)]) ∧
    (makeMove st sid rid mv gs).tasks = [] := by
  unfold makeMove
  rcases mapGet st.playerSockets sid with _ | player
  · exact ⟨rfl, ⟨_, rfl⟩, rfl⟩
  · rw [hroom]
    dsimp only
    split_ifs <;> exact ⟨rfl, ⟨_, rfl⟩, rfl⟩

/-- White's player-socket entry in the sample states. -/
def alicePlayer : PlayerInfo :=
  { userId := 1, username := "alice", roomId := some "ROOM1", isGuest := false }

/-- Black's player-socket entry in the sample states. -/
def bobPlayer : PlayerInfo :=
  { userId := 2, username := "bob", roomId := some "ROOM1", isGuest := false }

/-- A room in the middle of a game (both slots taken, four moves played). -/
def playingRoom : GameRoom Nat :=
  { id := "ROOM1", gameId := some 7
    white := some ⟨1, "alice", "s1"⟩, black := some ⟨2, "bob", "s2"⟩
    gameState := some 0, status := .playing, currentTurn := .white
    moveCount := 4, createdAt := 100 }

/-- A server state holding `playingRoom` and its two connections. -/
def playingState : ServerState Nat :=
  { gameRooms := [("ROOM1", playingRoom)]
    playerSockets := [("s1", alicePlayer), ("s2", bobPlayer)] }

/-- C1 witness: white submits move number 99 while `moveCount` is 4. -/
theorem makeMove_bad_sequence_rejected_witness :
    (makeMove playingState "s1" "ROOM1" ⟨"e2", "e4", "pawn", 99⟩ 1).state = playingState ∧
    (∃ msg, (makeMove playingState "s1" "ROOM1" ⟨"e2", "e4", "pawn", 99⟩ 1).events
        = [(.sender, .errorEv msg)]) ∧
    (makeMove playingState "s1" "ROOM1" ⟨"e2", "e4", "pawn", 99⟩ 1).tasks = [] :=
  makeMove_bad_sequence_rejected playingState "s1" "ROOM1" ⟨"e2", "e4", "pawn", 99⟩ 1
    playingRoom (by decide) (by decide)

/-! ## Claim: forward-only room lifecycle -/

/-- C2.  Room lifecycle invariants of the handler suite:

1.  `join_room` on a `playing` or `finished` room is rejected with a single
    `error` event to the requester and changes nothing;
2.  (2–7) under `join_room`, `make_move`, `game_end`, `disconnect` (with the
    registry's `Map`-key uniqueness), the two scheduled cleanup bodies, and
    `create_room` with a fresh generated code, any room present before and
    after never moves backwards in the `waiting → playing → finished` order;
3.  (8) every `make_move` that is accepted (it emitted `move_accepted`) was
    submitted by the side whose turn it was, carries move number
    `moveCount + 1`, and leaves the room with `moveCount` bumped by exactly
    one and `currentTurn` flipped. -/
theorem room_lifecycle_invariants :
    (∀ (γ : Type) (st : ServerState γ) (sid rid : String) (gid : Option Nat)
        (room : GameRoom γ),
      mapGet st.gameRooms rid = some room →
      (room.status = .playing ∨ room.status = .finished) →
      (joinRoom st sid rid gid).state = st ∧
        ∃ msg, (joinRoom st sid rid gid).events = [(.sender, .errorEv msg)]) ∧
    (∀ (γ : Type) (st : ServerState γ) (sid rid : String) (gid : Option Nat)
        (k : String) (r r' : GameRoom γ),
      mapGet st.gameRooms k = some r →
      mapGet (joinRoom st sid rid gid).state.gameRooms k = some r' →
      statusLe r.status r'.status) ∧
    (∀ (γ : Type) (st : ServerState γ) (sid rid : String) (mv : MoveData) (gs : γ)
        (k : String) (r r' : GameRoom γ),
      mapGet st.gameRooms k = some r →
      mapGet (makeMove st sid rid mv gs).state.gameRooms k = some r' →
      statusLe r.status r'.status) ∧
    (∀ (γ : Type) (st : ServerState γ) (sid rid : String) (w : GameWinner) (gs : γ)
        (k : String) (r r' : GameRoom γ),
      mapGet st.gameRooms k = some r →
      mapGet (gameEnd st sid rid w gs).state.gameRooms k = some r' →
      statusLe r.status r'.status) ∧
    (∀ (γ : Type) (st : ServerState γ) (sid : String) (k : String)
        (r r' : GameRoom γ),
      (st.gameRooms.map Prod.fst).Nodup →
      mapGet st.gameRooms k = some r →
      mapGet (disconnect st sid).state.gameRooms k = some r' →
      statusLe r.status r'.status) ∧
    (∀ (γ : Type) (st : ServerState γ) (rid k : String) (r r' : GameRoom γ),
      (st.gameRooms.map Prod.fst).Nodup →
      mapGet st.gameRooms k = some r →
      mapGet (runAbandonedCleanup st rid).gameRooms k = some r' →
      statusLe r.status r'.status) ∧
    (∀ (γ : Type) (st : ServerState γ) (rid k : String) (r r' : GameRoom γ),
      (st.gameRooms.map Prod.fst).Nodup →
      mapGet st.gameRooms k = some r →
      mapGet (runGameEndCleanup st rid).gameRooms k = some r' →
      statusLe r.status r'.status) ∧
    (∀ (γ : Type) (st : ServerState γ) (sid nid : String) (now : Nat)
        (k : String) (r r' : GameRoom γ),
      mapGet st.gameRooms nid = none →
      mapGet st.gameRooms k = some r →
      mapGet (createRoom st sid nid now).state.gameRooms k = some r' →
      statusLe r.status r'.status) ∧
    (∀ (γ : Type) (st : ServerState γ) (sid rid : String) (mv : MoveData) (gs : γ)
        (room : GameRoom γ) (c : Color) (n : Nat),
      mapGet st.gameRooms rid = some room →
      (EmitTarget.sender, SEvent.moveAccepted mv gs c n)
          ∈ (makeMove st sid rid mv gs).events →
      n = room.moveCount + 1 ∧ c = room.currentTurn ∧
        mapGet (makeMove st sid rid mv gs).state.gameRooms rid
          = some { room with
                     gameState := some gs
                     currentTurn := flipColor room.currentTurn
                     moveCount := room.moveCount + 1 }) := by
  refine ⟨?join_reject, ?join_mono, ?move_mono, ?end_mono, ?disc_mono,
    ?aband_mono, ?endclean_mono, ?create_mono, ?accept⟩
  case join_reject =>
    intro γ st sid rid gid room hroom hstat
    unfold joinRoom
    rcases mapGet st.playerSockets sid with _ | player
    · exact ⟨rfl, _, rfl⟩
    · rw [hroom]
      dsimp only
      rw [if_pos (by rcases hstat with h | h <;> rw [h] <;> decide)]
      exact ⟨rfl, _, rfl⟩
  case join_mono =>
    intro γ st sid rid gid k r r' hr hr'
    rcases joinRoom_rooms_spec st sid rid gid with heq | ⟨room, room', hm, hw, hp, heq⟩
    · rw [heq, hr] at hr'; cases hr'; exact statusLe_refl _
    · rw [heq] at hr'
      refine statusLe_of_mapSet st.gameRooms rid k room room' r r' hm ?_ hr hr'
      rw [hw, hp]; decide
  case move_mono =>
    intro γ st sid rid mv gs k r r' hr hr'
    rcases makeMove_rooms_spec st sid rid mv gs with heq | ⟨room, room', hm, hs, heq⟩
    · rw [heq, hr] at hr'; cases hr'; exact statusLe_refl _
    · rw [heq] at hr'
      refine statusLe_of_mapSet st.gameRooms rid k room room' r r' hm ?_ hr hr'
      rw [hs]; exact statusLe_refl _
  case end_mono =>
    intro γ st sid rid w gs k r r' hr hr'
    rcases gameEnd_rooms_spec st sid rid w gs with heq | ⟨room, room', hm, hs, heq⟩
    · rw [heq, hr] at hr'; cases hr'; exact statusLe_refl _
    · rw [heq] at hr'
      refine statusLe_of_mapSet st.gameRooms rid k room room' r r' hm ?_ hr hr'
      rw [hs]; exact statusLe_finished _
  case disc_mono =>
    intro γ st sid k r r' hnd hr hr'
    rcases disconnect_rooms_spec st sid with heq | ⟨rid, heq⟩
    · rw [heq, hr] at hr'; cases hr'; exact statusLe_refl _
    · rw [heq] at hr'
      exact statusLe_of_mapDelete st.gameRooms rid k r r' hnd hr hr'
  case aband_mono =>
    intro γ st rid k r r' hnd hr hr'
    unfold runAbandonedCleanup at hr'
    rcases hm : mapGet st.gameRooms rid with _ | room
    · rw [hm] at hr'
      dsimp only at hr'
      rw [hr] at hr'; cases hr'; exact statusLe_refl _
    · rw [hm] at hr'
      dsimp only at hr'
      split_ifs at hr'
      · exact statusLe_of_mapDelete st.gameRooms rid k r r' hnd hr hr'
      · rw [hr] at hr'; cases hr'; exact statusLe_refl _
  case endclean_mono =>
    intro γ st rid k r r' hnd hr hr'
    unfold runGameEndCleanup at hr'
    exact statusLe_of_mapDelete st.gameRooms rid k r r' hnd hr hr'
  case create_mono =>
    intro γ st sid nid now k r r' hfresh hr hr'
    rcases createRoom_rooms_spec st sid nid now with heq | ⟨room', hw, heq⟩
    · rw [heq, hr] at hr'; cases hr'; exact statusLe_refl _
    · rw [heq, mapGet_mapSet] at hr'
      by_cases hk : nid = k
      · subst hk; rw [hfresh] at hr; cases hr
      · rw [if_neg hk, hr] at hr'; cases hr'; exact statusLe_refl _
  case accept =>
    intro γ st sid rid mv gs room c n hroom hmem
    unfold makeMove at hmem ⊢
    rcases hp : mapGet st.playerSockets sid with _ | player <;> rw [hp] at hmem
    · simp at hmem
    · rw [hroom] at hmem ⊢
      dsimp only at hmem ⊢
      split_ifs at hmem ⊢ <;> simp at hmem <;>
        (rename_i ht hs2
         obtain ⟨hc, hn⟩ := hmem
         subst hc
         have ht2 := not_not.mp ht
         have hs3 := not_not.mp hs2
         refine ⟨by omega, by rw [ht2], ?_⟩
         rw [mapGet_mapSet, if_pos rfl, ht2, hs3])

/-- C2 witness: the rejection clause evaluated for a join attempt on the
in-progress sample room, and the accepted-move clause evaluated for white's
move number 5 after four moves. -/
theorem room_lifecycle_invariants_witness :
    ((joinRoom playingState "s9" "ROOM1" none).state = playingState ∧
      ∃ msg, (joinRoom playingState "s9" "ROOM1" none).events
        = [(.sender, .errorEv msg)]) ∧
    ((5 : Nat) = playingRoom.moveCount + 1 ∧ Color.white = playingRoom.currentTurn ∧
      mapGet (makeMove playingState "s1" "ROOM1" ⟨"e2", "e4", "pawn", 5⟩ 1).state.gameRooms
          "ROOM1"
        = some { playingRoom with
                   gameState := some 1
                   currentTurn := flipColor playingRoom.currentTurn
                   moveCount := playingRoom.moveCount + 1 }) :=
  ⟨room_lifecycle_invariants.1 Nat playingState "s9" "ROOM1" none playingRoom
      (by decide) (Or.inl (by decide)),
   room_lifecycle_invariants.2.2.2.2.2.2.2.2 Nat playingState "s1" "ROOM1"
      ⟨"e2", "e4", "pawn", 5⟩ 1 playingRoom .white 5 (by decide) (by decide)⟩

/-! ## Claims about room codes and room creation -/

/-- C6 counterexample data: a live in-progress room whose code happens to be
the next generated code. -/
def liveRoom : GameRoom Nat :=
  { id := "ABC123", gameId := some 3
    white := some ⟨1, "alice", "s1"⟩, black := some ⟨2, "bob", "s2"⟩
    gameState := some 9, status := .playing, currentTurn := .black
    moveCount := 10, createdAt := 0 }

/-- C6 counterexample data: the registry holding `liveRoom` plus a third,
freshly connected socket about to create a room. -/
def collisionState : ServerState Nat :=
  { gameRooms := [("ABC123", liveRoom)]
    playerSockets := [("s9", ⟨9, "carol", none, true⟩)] }

/-- C6 counterexample.  `generateRoomId` has no collision check and
`create_room` `Map.set`s the generated code unconditionally: when the random
draw's base-36 digits are `a, b, c, 1, 2, 3` the generated code is exactly
the live room's code "ABC123", and after `create_room` the registry's entry
for "ABC123" is no longer the live `playing` room but the creator's fresh
`waiting` room — the live room has been overwritten. -/
theorem createRoom_overwrites_live_room :
    generateRoomId [10, 11, 12, 1, 2, 3] = "ABC123" ∧
    mapGet collisionState.gameRooms "ABC123" = some liveRoom ∧
    liveRoom.status = .playing ∧
    mapGet (createRoom collisionState "s9"
        (generateRoomId [10, 11, 12, 1, 2, 3]) 7).state.gameRooms "ABC123"
      ≠ some liveRoom ∧
    (mapGet (createRoom collisionState "s9"
        (generateRoomId [10, 11, 12, 1, 2, 3]) 7).state.gameRooms "ABC123").map
          (fun r => r.status)
      = some RoomStatus.waiting := by
  refine ⟨by decide, by decide, by decide, by decide, by decide⟩

/-- C6 (amended).  Every generated room code is an uppercase alphanumeric
string of at most 6 ≤ 20 characters (it is empty only in the boundary case
of a draw whose fractional base-36 expansion is empty, i.e. `Math.random()`
returning exactly 0); and `create_room` performs no collision check — for an
authenticated requester it unconditionally `Map.set`s the generated code to
the brand-new `waiting` room, overwriting any live room with that code. -/
theorem generateRoomId_format_and_unconditional_insert :
    (∀ digits : List (Fin 36),
      (generateRoomId digits).length ≤ 20 ∧
      ∀ c ∈ (generateRoomId digits).data,
        ('A' ≤ c ∧ c ≤ 'Z') ∨ ('0' ≤ c ∧ c ≤ '9')) ∧
    (∀ (γ : Type) (st : ServerState γ) (sid nid : String) (now : Nat)
        (player : PlayerInfo),
      mapGet st.playerSockets sid = some player →
      mapGet (createRoom st sid nid now).state.gameRooms nid
        = some { id := nid, gameId := none
                 white := some ⟨player.userId, player.username, sid⟩
                 black := none, gameState := none, status := .waiting
                 currentTurn := .white, moveCount := 0, createdAt := now }) := by
  constructor
  · intro digits
    constructor
    · show (((digits.take 6).map base36Char).map Char.toUpper).length ≤ 20
      simp only [List.length_map, List.length_take]
      omega
    · intro c hc
      have hmem : c ∈ ((digits.take 6).map base36Char).map Char.toUpper := hc
      simp only [List.mem_map] at hmem
      obtain ⟨ch, ⟨d, _, hd⟩, hup⟩ := hmem
      subst hd hup
      have hall : ∀ d : Fin 36,
          ('A' ≤ (base36Char d).toUpper ∧ (base36Char d).toUpper ≤ 'Z') ∨
          ('0' ≤ (base36Char d).toUpper ∧ (base36Char d).toUpper ≤ '9') := by
        decide
      exact hall d
  · intro γ st sid nid now player hplayer
    unfold createRoom
    rw [hplayer]
    dsimp only
    rw [mapGet_mapSet, if_pos rfl]

/-- C6 (amended) witness: the unconditional insert evaluated for the sample
creator socket. -/
theorem generateRoomId_format_and_unconditional_insert_witness :
    mapGet (createRoom collisionState "s9" "XYZ789" 7).state.gameRooms "XYZ789"
      = some { id := "XYZ789", gameId := none
               white := some ⟨9, "carol", "s9"⟩
               black := none, gameState := none, status := .waiting
               currentTurn := .white, moveCount := 0, createdAt := 7 } :=
  generateRoomId_format_and_unconditional_insert.2 Nat collisionState "s9" "XYZ789" 7
    ⟨9, "carol", none, true⟩ (by decide)

/-! ## Claim about disconnect handling -/

/-- C7.  For a connection bound to an existing room: disconnecting from a
`waiting` room deletes the room immediately and schedules nothing, while
disconnecting from a `playing` room leaves the room in the registry,
notifies the other room members with `player_disconnected`, schedules the
5-minute abandoned-room cleanup, and only that cleanup's later firing (while
the room is still `playing`) removes the room. -/
theorem disconnect_waiting_deletes_playing_defers {γ : Type}
    (st : ServerState γ) (sid : String) (player : PlayerInfo) (rid : String)
    (room : GameRoom γ)
    (hnd : (st.gameRooms.map Prod.fst).Nodup)
    (hplayer : mapGet st.playerSockets sid = some player)
    (hrid : player.roomId = some rid)
    (hroom : mapGet st.gameRooms rid = some room) :
    (room.status = .waiting →
      mapGet (disconnect st sid).state.gameRooms rid = none ∧
      (disconnect st sid).tasks = []) ∧
    (room.status = .playing →
      mapGet (disconnect st sid).state.gameRooms rid = some room ∧
      (disconnect st sid).events
        = [(.roomOthers rid, .playerDisconnected player.username player.userId)] ∧
      (disconnect st sid).tasks = [.abandonedCleanup rid 300000] ∧
      mapGet (runAbandonedCleanup (disconnect st sid).state rid).gameRooms rid
        = none) := by
  unfold disconnect
  rw [hplayer]
  dsimp only
  rw [hrid]
  dsimp only
  rw [hroom]
  dsimp only
  constructor
  · intro hw
    rw [hw]
    exact ⟨by rw [mapGet_mapDelete _ _ _ hnd, if_pos rfl], rfl⟩
  · intro hp2
    rw [hp2]
    refine ⟨hroom, rfl, rfl, ?_⟩
    unfold runAbandonedCleanup
    dsimp only
    rw [hroom]
    dsimp only
    rw [if_pos hp2]
    dsimp only
    rw [mapGet_mapDelete _ _ _ hnd, if_pos rfl]

/-- C7 witness: white's socket disconnecting from the in-progress sample
room. -/
theorem disconnect_waiting_deletes_playing_defers_witness :
    playingRoom.status = .playing ∧
    mapGet (disconnect playingState "s1").state.gameRooms "ROOM1" = some playingRoom ∧
    (disconnect playingState "s1").events
      = [(.roomOthers "ROOM1", .playerDisconnected "alice" 1)] ∧
    (disconnect playingState "s1").tasks = [.abandonedCleanup "ROOM1" 300000] ∧
    mapGet (runAbandonedCleanup (disconnect playingState "s1").state "ROOM1").gameRooms
        "ROOM1" = none :=
  ⟨by decide,
    (disconnect_waiting_deletes_playing_defers playingState "s1" alicePlayer "ROOM1"
        playingRoom (by decide) (by decide) (by decide) (by decide)).2 (by decide)⟩

/-! ## Claim about game-completion idempotency -/

/-- C10.  `completeGame` on a game whose row already has status
`'completed'` returns the existing row and leaves the whole database state —
the game row and both players' stats rows — untouched, so wins, losses,
points and level are never double-counted for the same game. -/
theorem completeGame_idempotent_on_completed (db : DBState) (id : Nat)
    (w : GameWinner) (wu : Option Nat) (now : Nat) (g : GameRec)
    (hg : mapGet db.games id = some g) (hc : g.status = "completed") :
    completeGame db id w wu now = .ok (g, db) := by
  unfold completeGame
  rw [hg]
  dsimp only
  rw [if_pos hc]

/-- C10 witness data: an already-completed game row. -/
def doneGame : GameRec :=
  { id := 1, player1Id := some 1, player2Id := some 2, status := "completed"
    winner := some .white, winnerUserId := some 1, whitePoints := 12
    blackPoints := 5, completedAt := some 50, updatedAt := 50 }

/-- C10 witness data: the database holding `doneGame` and both players'
stats. -/
def doneDB : DBState :=
  { games := [(1, doneGame)]
    stats := [(1, ⟨1, 3, 2, 1, 1200, 30, 2, 50⟩), (2, ⟨2, 3, 1, 2, 1200, 11, 1, 50⟩)] }

/-- C10 witness: re-completing the finished game changes nothing. -/
theorem completeGame_idempotent_on_completed_witness :
    completeGame doneDB 1 .black (some 2) 99 = .ok (doneGame, doneDB) :=
  completeGame_idempotent_on_completed doneDB 1 .black (some 2) 99 doneGame
    (by decide) (by decide)

end RPGChess
